import Mathlib

/-!
Verification of the orchestration layer of `cad_to_h5m` (`src/cad_to_h5m/core.py`).

The module sequences text commands sent to an external geometry kernel
("cubit").  We embed it shallowly:

* the kernel is an oracle `Kernel : List String → View` mapping the command
  history issued so far to the answers of the kernel's query primitives
  (`parse_cubit_list`, `surface.is_planar`, `volume.entity_name`);
* the session state `St` records the list of commands issued so far;
* Python exceptions become an `Err` value returned next to the state, so the
  commands issued before an exception stay observable;
* numbers spliced into command strings are integers (`Nat` for kernel volume
  and surface ids, `Int` for user-supplied transform payloads); the two float
  tolerances are carried as the string `str(x)` would produce, since the code
  only ever splices them into commands;
* Python dictionaries that the code iterates (`transforms`,
  `surface_reflectivity`) are insertion-ordered association lists, and dict
  iteration is modelled with CPython's semantics: a deletion during iteration
  makes the next call of the iterator raise
  `RuntimeError: dictionary changed size during iteration`.
-/

/-! ## String helpers

Structural-recursion replacements for library string routines, so that every
definition evaluates by `rfl`/`decide`. -/

/-- Join strings with a single space: Python `" ".join(xs)`. -/
def joinSp (xs : List String) : String :=
  match xs with
  | [] => ""
  | x :: rest => rest.foldl (fun a b => a ++ " " ++ b) x

/-- Split a character list at a separator; Python `s.split(sep)` behaviour
(`"".split` gives one empty field, trailing separator gives an empty field). -/
def splitChars (sep : Char) : List Char → List (List Char)
  | [] => [[]]
  | c :: cs =>
    let r := splitChars sep cs
    if c = sep then [] :: r
    else
      match r with
      | [] => [[c]]
      | g :: gs => (c :: g) :: gs

/-- Index of the last occurrence of a character, if any. -/
def lastIdxOfGo (ch : Char) : List Char → Nat → Option Nat → Option Nat
  | [], _, acc => acc
  | c :: cs, i, acc => lastIdxOfGo ch cs (i + 1) (if c = ch then some i else acc)

def lastIdxOf (ch : Char) (cs : List Char) : Option Nat :=
  lastIdxOfGo ch cs 0 none

/-- The final path component of a POSIX path as `pathlib.PurePath.name`
computes it: split on `/`, drop empty and `"."` components, take the last
(or empty for a root/empty path). -/
def pyName (s : String) : List Char :=
  ((splitChars '/' s.data).filter (fun c => c ≠ [] ∧ c ≠ ['.'])).getLastD []

/-- `pathlib.Path(s).suffix`: the part of the name from its last dot on,
provided that dot is neither the first nor the last character of the name. -/
def pySuffix (s : String) : String :=
  let n := pyName s
  match lastIdxOf '.' n with
  | some i => if 0 < i ∧ i < n.length - 1 then String.mk (n.drop i) else ""
  | none => ""

/-- `os.path.split(s)[-1]`: everything after the last `/` (no component
filtering). -/
def shortFileName (s : String) : String :=
  String.mk ((splitChars '/' s.data).getLastD s.data)

/-- Python `s.endswith(suf)`. -/
def strEndsWith (s suf : String) : Bool :=
  suf.data.isSuffixOf s.data

/-- Python `s.startswith(p)`. -/
def strStartsWith (s p : String) : Bool :=
  p.data.isPrefixOf s.data

/-- Python `s.lower()` (ASCII is all the code compares). -/
def strToLower (s : String) : String :=
  String.mk (s.data.map Char.toLower)

/-- Concatenating map, `List.bind` written out structurally. -/
def catMap (f : α → List β) : List α → List β
  | [] => []
  | a :: l => f a ++ catMap f l

/-! ## Data model -/

/-- The value shapes accepted under the `"move"` key (`core.py`
`move_volume`): a plain translation vector applied to all of the entry's
volumes; a `(volumes, vector)` tuple; or a `(volumes, vectors)` tuple pairing
each listed volume with its own vector.  The constructors correspond to the
`isinstance` tests of the source. -/
inductive MoveSpec where
  | uniform (v : List Int)
  | subset (vols : List Int) (v : List Int)
  | multi (vols : List Int) (vs : List (List Int))
deriving DecidableEq, Repr

/-- One key/value pair of the `transforms` dictionary, in insertion order.
Python dict keys are unique, so a well-formed list holds at most one entry
per constructor; `other` is any unrecognised key, which the source ignores. -/
inductive Transform where
  | move (m : MoveSpec)
  | scale (s : Int)
  | rotate (r : List Int)
  | other (key : String)
deriving DecidableEq, Repr

/-- A geometry entry of `files_with_tags`.  `volumes` is filled in by the
loader (Python stores the ids as strings produced by `str`, re-parsed with
`int` where needed; we keep the underlying numbers).  `surface_reflectivity`
is `some d` when the dictionary key is present with record `d` (surface id to
the `"reflector"` boolean, in insertion order). -/
structure Entry where
  cad_filename : String
  material_tag : Option String := none
  tet_mesh : Option String := none
  transforms : Option (List Transform) := none
  surface_reflectivity : Option (List (Nat × Bool)) := none
  volumes : List Nat := []
deriving DecidableEq, Repr

/-- Python exceptions raised by the module. -/
inductive Err where
  | valueError (msg : String)
  | importError (msg : String)
  | fileNotFound (msg : String)
  | typeError (msg : String)
  | runtimeError (msg : String)
  | nameError (msg : String)
  | indexError
  | keyError (k : String)
deriving DecidableEq, Repr

/-- Answers of the kernel's query primitives.  `parse ty filt` is
`cubit.parse_cubit_list(ty, filt)`; `isPlanar` is `surface(id).is_planar()`;
`entityName` is `volume(id).entity_name()`. -/
structure View where
  parse : String → String → List Nat
  isPlanar : Nat → Bool
  entityName : Nat → String

/-- The kernel as an oracle over the history of commands issued so far. -/
def Kernel : Type := List String → View

/-- Session state: the commands sent to the kernel, in order. -/
structure St where
  trace : List String
deriving DecidableEq, Repr

/-- `cubit.cmd c`. -/
def St.cmd (st : St) (c : String) : St := ⟨st.trace ++ [c]⟩

/-- Space-joined volume list of an entry: `" ".join(entry["volumes"])`. -/
def volsJoin (e : Entry) : String :=
  joinSp (e.volumes.map toString)

/-! ## Reflecting-surface functions (`core.py` 317-378) -/

/-- `find_all_surfaces_of_reflecting_wedge(new_vols, cubit, verbose)`:
classify each surface of the given volumes as reflector iff it is planar and
bounded by exactly four vertices.  Pure queries, no commands issued. -/
def find_all_surfaces_of_reflecting_wedge (K : Kernel) (new_vols : List Nat)
    (st : St) : List (Nat × Bool) :=
  let v := K st.trace
  let surfaces_in_volume :=
    v.parse "surface" (" in volume " ++ joinSp (new_vols.map toString))
  surfaces_in_volume.map (fun sid =>
    (sid, v.isPlanar sid && (v.parse "vertex" (" in surface " ++ toString sid)).length == 4))

/-- The first loop of `find_reflecting_surfaces_of_reflecting_wedge`:
`for surface_id in surface_info_dict.keys(): if reflector and id not in live:
del surface_info_dict[surface_id]`.  CPython dict iterators raise
`RuntimeError` at the first `next()` after the dictionary's size changed, so
the first deletion is performed and the following iterator step (possibly the
terminating one) raises. -/
def delLoopGo (live : List Nat) :
    List (Nat × Bool) → List (Nat × Bool) → Bool → List (Nat × Bool) × Option Err
  | [], acc, mutated =>
    if mutated then
      (acc, some (Err.runtimeError "dictionary changed size during iteration"))
    else (acc, none)
  | (k, b) :: rest, acc, mutated =>
    if mutated then
      (acc ++ (k, b) :: rest,
        some (Err.runtimeError "dictionary changed size during iteration"))
    else if b && !(live.contains k) then
      delLoopGo live rest acc true
    else
      delLoopGo live rest (acc ++ [(k, b)]) false

def delLoop (d : List (Nat × Bool)) (live : List Nat) :
    List (Nat × Bool) × Option Err :=
  delLoopGo live d [] false

/-- Keys of a surface-reflectivity record. -/
def recKeys (d : List (Nat × Bool)) : List Nat := d.map Prod.fst

/-- `'group "' + surface_reflectivity_name + '" add surf ' + str(surface_id)`. -/
def grpSurfCmd (name : String) (sid : Nat) : String :=
  "group \"" ++ name ++ "\" add surf " ++ toString sid

/-- `"surface " + str(surface_id) + " visibility on"`. -/
def visSurfCmd (sid : Nat) : String :=
  "surface " ++ toString sid ++ " visibility on"

/-- The second loop: every live surface id absent from the record is added
with `{"reflector": True}` and two commands are issued for it.  The
membership test runs against the growing dictionary. -/
def addNewGo (name : String) :
    List (Nat × Bool) → List Nat → List (Nat × Bool) × List String
  | d, [] => (d, [])
  | d, sid :: rest =>
    if (recKeys d).contains sid then addNewGo name d rest
    else
      let d' := d ++ [(sid, true)]
      let (d2, cmds) := addNewGo name d' rest
      (d2, grpSurfCmd name sid :: visSurfCmd sid :: cmds)

/-- `find_reflecting_surfaces_of_reflecting_wedge(geometry_details,
surface_reflectivity_name, cubit, verbose)`: reconcile the record of the
first entry carrying a `surface_reflectivity` key against the live surface
set of that entry's volumes and return immediately; later entries are left
untouched.  `verbose` only controls prints and is not modelled. -/
def frswGo (K : Kernel) (name : String) (st : St) :
    List Entry → St × Except Err (List Entry × Option String)
  | [] => (st, .ok ([], none))
  | e :: rest =>
    match e.surface_reflectivity with
    | some d =>
      let wedge_volume := volsJoin e
      let live := (K st.trace).parse "surface" (" in volume " ++ wedge_volume)
      match delLoop d live with
      | (_, some err) => (st, .error err)
      | (d1, none) =>
        let (d2, cmds) := addNewGo name d1 live
        (⟨st.trace ++ cmds⟩,
          .ok ({ e with surface_reflectivity := some d2 } :: rest, some wedge_volume))
    | none =>
      match frswGo K name st rest with
      | (st', .ok (rest', wv)) => (st', .ok (e :: rest', wv))
      | (st', .error err) => (st', .error err)

def find_reflecting_surfaces_of_reflecting_wedge (K : Kernel)
    (geometry_details : List Entry) (surface_reflectivity_name : String)
    (st : St) : St × Except Err (List Entry × Option String) :=
  frswGo K surface_reflectivity_name st geometry_details

/-! ## Transform functions (`core.py` 200-236) -/

/-- Dictionary lookup `entry["transforms"]["move"]` (dict keys are unique, so
the first matching tag is the key's value). -/
def dictMove (ts : List Transform) : Option MoveSpec :=
  ts.findSome? (fun t => match t with | .move m => some m | _ => none)

def dictScale (ts : List Transform) : Option Int :=
  ts.findSome? (fun t => match t with | .scale s => some s | _ => none)

def dictRotate (ts : List Transform) : Option (List Int) :=
  ts.findSome? (fun t => match t with | .rotate r => some r | _ => none)

/-- `scale_geometry(cubit, entry)`: one command (the f-string has two spaces
around `scale`).  A missing key would be a Python `KeyError`; the loop in
`apply_transforms` only calls this when the key is present. -/
def scale_geometry (e : Entry) : List String × Option Err :=
  match e.transforms.bind dictScale with
  | some s => (["volume " ++ volsJoin e ++ "  scale  " ++ toString s], none)
  | none => ([], some (Err.keyError "scale"))

/-- The per-pair loop of the third `move` shape:
`for vol, mov in enumerate(move[1]): cmd(... move[0][vol] ...)`.  When the
vector list is longer than the volume list, the commands for the paired
elements are issued and then indexing raises `IndexError`. -/
def moveMultiGo : List Int → List (List Int) → List String × Option Err
  | _, [] => ([], none)
  | [], _ :: _ => ([], some Err.indexError)
  | v :: restVols, mov :: restVs =>
    let (cmds, err) := moveMultiGo restVols restVs
    (("volume " ++ toString v ++ "  move  " ++ joinSp (mov.map toString)) :: cmds, err)

/-- `move_volume(cubit, entry)`. -/
def move_volume (e : Entry) : List String × Option Err :=
  match e.transforms.bind dictMove with
  | none => ([], some (Err.keyError "move"))
  | some (.multi vols vs) => moveMultiGo vols vs
  | some (.subset vols v) =>
    (["volume " ++ joinSp (vols.map toString) ++ "  move  " ++ joinSp (v.map toString)], none)
  | some (.uniform v) =>
    (["volume " ++ volsJoin e ++ "  move  " ++ joinSp (v.map toString)], none)

/-- `rotate_volume(cubit, entry)`: element 0 is the angle (IndexError on an
empty list), elements 1-3 the origin, 4-6 the direction (plain slices). -/
def rotate_volume (e : Entry) : List String × Option Err :=
  match e.transforms.bind dictRotate with
  | none => ([], some (Err.keyError "rotate"))
  | some [] => ([], some Err.indexError)
  | some (a :: rest) =>
    (["rotate volume " ++ volsJoin e ++ "  angle " ++ toString a ++
      " about origin " ++ joinSp ((rest.take 3).map toString) ++
      " direction " ++ joinSp (((rest.drop 3).take 3).map toString)], none)

/-- The dispatch of the key loop of `apply_transforms`: the three independent
`if transform == ...` tests select the helper for the key (an unrecognised
key falls through all three). -/
def transformStep (e : Entry) (t : Transform) : List String × Option Err :=
  match t with
  | .move _ => move_volume e
  | .scale _ => scale_geometry e
  | .rotate _ => rotate_volume e
  | .other _ => ([], none)

/-- The inner key loop of `apply_transforms`: for each key of the transforms
dictionary, in insertion order, dispatch to the helper for that key. -/
def transformKeyLoop (e : Entry) : List Transform → List String × Option Err
  | [] => ([], none)
  | t :: rest =>
    let (cmds, err) := transformStep e t
    match err with
    | some err => (cmds, some err)
    | none =>
      let (cs, err') := transformKeyLoop e rest
      (cmds ++ cs, err')

/-- `apply_transforms(cubit, geometry_details)`: per-entry key loop, then one
kernel-wide `healer autoheal vol all`. -/
def applyTransformsGo (st : St) : List Entry → St × Option Err
  | [] => (st, none)
  | e :: rest =>
    match e.transforms with
    | none => applyTransformsGo st rest
    | some ts =>
      match transformKeyLoop e ts with
      | (cmds, some err) => (⟨st.trace ++ cmds⟩, some err)
      | (cmds, none) => applyTransformsGo ⟨st.trace ++ cmds⟩ rest

def apply_transforms (geometry_details : List Entry) (st : St) : St × Option Err :=
  match applyTransformsGo st geometry_details with
  | (st', some err) => (st', some err)
  | (st', none) => (st'.cmd "healer autoheal vol all", none)

/-! ## Material tagging (`core.py` 381-444) -/

def tagTooLongMsg (t : String) : String :=
  "material_tag > 28 characters. Material tags must be less than 28 " ++
  "characters use in DAGMC. " ++ t ++ " is too long."

/-- `'group "mat:' + tag + '" add volume ' + vols`. -/
def matGroupCmd (tag volsStr : String) : String :=
  "group \"mat:" ++ tag ++ "\" add volume " ++ volsStr

/-- `f'group "mat:{ict}_comp" add vol {v}'`. -/
def compGroupCmd (ict : String) (v : Nat) : String :=
  "group \"mat:" ++ ict ++ "_comp\" add vol " ++ toString v

/-- Body of the per-entry loop of `tag_geometry_with_mats`: raise for a tag
longer than 27 characters before any command; otherwise group the volumes
under `mat:<tag>`, with the case-insensitive `graveyard` special case; for an
entry without a tag, group each volume under the kernel entity name up to the
first `@` (the `volume_mat_list` bookkeeping is local to the source function
and never read, and prints are not modelled). -/
def tagEntry (K : Kernel) (implicit_complement_material_tag : Option String)
    (st : St) (e : Entry) : St × Option Err :=
  match e.material_tag with
  | some t =>
    if t.length > 27 then (st, some (Err.valueError (tagTooLongMsg t)))
    else
      let st := st.cmd (matGroupCmd t (volsJoin e))
      if strToLower t = "graveyard" then
        match implicit_complement_material_tag with
        | some ict =>
          match e.volumes with
          | [] => (st, some Err.indexError)
          | v :: _ => (st.cmd (compGroupCmd ict v), none)
        | none => (st, none)
      else (st, none)
  | none =>
    (e.volumes.foldl (fun st v =>
      let mat_name :=
        String.mk ((splitChars '@' ((K st.trace).entityName v).data).headD [])
      st.cmd (matGroupCmd mat_name (toString v))) st, none)

def tagFold (K : Kernel) (ict : Option String) (st : St) :
    List Entry → St × Option Err
  | [] => (st, none)
  | e :: rest =>
    match tagEntry K ict st e with
    | (st', some err) => (st', some err)
    | (st', none) => tagFold K ict st' rest

/-- The graveyard block (`core.py` 421-444): two concentric bricks, a
subtract whose command lacks the space before `from`, and the group command
for the volume numbered three past the last recorded volume id. -/
def graveyardCmds (geometry_details : List Entry) (ict : Option String)
    (L : Int) (st : St) : St × Option Err :=
  match geometry_details.getLast? with
  | none => (st, some Err.indexError)
  | some lastE =>
    match lastE.volumes.getLast? with
    | none => (st, some Err.indexError)
    | some final_vol_number =>
      let inner := final_vol_number + 1
      let outer := final_vol_number + 2
      let graveyard_volume_number := final_vol_number + 3
      let st := st.cmd ("create brick x " ++ toString L)
      let st := st.cmd ("create brick x " ++ toString (L + 5))
      let st := st.cmd ("subtract vol " ++ toString inner ++ "from vol " ++ toString outer)
      let st := st.cmd (matGroupCmd "Graveyard" (toString graveyard_volume_number))
      match ict with
      | some ictag => (st.cmd (compGroupCmd ictag graveyard_volume_number), none)
      | none => (st, none)

/-- `tag_geometry_with_mats(geometry_details,
implicit_complement_material_tag, cubit, graveyard)`. -/
def tag_geometry_with_mats (K : Kernel) (geometry_details : List Entry)
    (implicit_complement_material_tag : Option String)
    (graveyard : Option Int) (st : St) : St × Option Err :=
  match tagFold K implicit_complement_material_tag st geometry_details with
  | (st', some err) => (st', some err)
  | (st', none) =>
    match graveyard with
    | some L => graveyardCmds geometry_details implicit_complement_material_tag L st'
    | none => (st', none)

/-! ## Volume loader (`core.py` 447-508) -/

/-- Python `set(a).symmetric_difference(set(b))` turned back into a list.
Set iteration order is implementation defined; this ordering agrees with it
in the source's use, where the first snapshot is contained in the second
(imports and unites only ever add volumes to the diff). -/
def pySymmDiff (a b : List Nat) : List Nat :=
  a.filter (fun x => !(b.contains x)) ++ b.filter (fun x => !(a.contains x))

/-- File-extension dispatch of the loader: `.stp`/`.step` import as `step`,
`.sat` as `acis`, anything else raises `ValueError`. -/
def importTypeOf (fn : String) : Option String :=
  if strEndsWith fn ".stp" || strEndsWith fn ".step" then some "step"
  else if strEndsWith fn ".sat" then some "acis"
  else none

def fileFormatMsg (fn : String) : String :=
  "File format for " ++ fn ++ " is not supported.Try step files or sat files"

def fileNotFoundMsg (fn : String) : String :=
  "File with filename " ++ fn ++ " could not be found"

/-- The error Python raises on `core.py` line 495, where
`find_all_surfaces_of_reflecting_wedge` — a function of three required
positional parameters `(new_vols, cubit, verbose)` — is called with only two
arguments. -/
def arityMsg : String :=
  "find_all_surfaces_of_reflecting_wedge() missing 1 required " ++
  "positional argument: verbose"

/-- One iteration of the loader loop: snapshot the volume ids, import the
file, auto-heal, diff to find the new volumes, unite them when the entry is
tagged and more than one volume appeared, re-diff, record the volumes on the
entry and register them under a group named by the file's base name.  If the
entry declares `surface_reflectivity`, the source then makes the two-argument
call modelled by `arityMsg`, so the iteration ends in a `TypeError`.  On
success also returns the `all_vols` snapshot the source leaves in its loop
variable. -/
def loadEntry (K : Kernel) (fileExists : String → Bool) (st : St) (e : Entry) :
    St × Except Err (Entry × List Nat) :=
  let current_vols := (K st.trace).parse "volume" "all"
  match importTypeOf e.cad_filename with
  | none => (st, .error (Err.valueError (fileFormatMsg e.cad_filename)))
  | some import_type =>
    if !(fileExists e.cad_filename) then
      (st, .error (Err.fileNotFound (fileNotFoundMsg e.cad_filename)))
    else
      let st := st.cmd ("import " ++ import_type ++ " \"" ++ e.cad_filename ++
        "\" separate_bodies no_surfaces no_curves no_vertices ")
      let st := st.cmd "healer autoheal vol all"
      let all_vols := (K st.trace).parse "volume" "all"
      let new_vols := pySymmDiff current_vols all_vols
      let st :=
        if e.material_tag.isSome && decide (new_vols.length > 1) then
          st.cmd ("unite vol " ++ joinSp (new_vols.map toString) ++
            " with vol " ++ joinSp (new_vols.map toString))
        else st
      let all_vols := (K st.trace).parse "volume" "all"
      let new_vols_after_unite := pySymmDiff current_vols all_vols
      let e' := { e with volumes := new_vols_after_unite }
      let st := st.cmd ("group \"" ++ shortFileName e.cad_filename ++
        "\" add volume " ++ joinSp (new_vols_after_unite.map toString))
      if e.surface_reflectivity.isSome then
        (st, .error (Err.typeError arityMsg))
      else
        (st, .ok (e', all_vols))

/-- The loader loop; threads the last `all_vols` snapshot (Python leaks the
loop variable, `none` meaning no iteration ran). -/
def fnovGo (K : Kernel) (fileExists : String → Bool) :
    List Entry → St → Option (List Nat) →
    St × Except Err (List Entry × Option (List Nat))
  | [], st, lastVols => (st, .ok ([], lastVols))
  | e :: rest, st, _ =>
    match loadEntry K fileExists st e with
    | (st', .error err) => (st', .error err)
    | (st', .ok (e', vols)) =>
      match fnovGo K fileExists rest st' (some vols) with
      | (st2, .ok (rest', lastVols)) => (st2, .ok (e' :: rest', lastVols))
      | (st2, .error err) => (st2, .error err)

/-- `find_number_of_volumes_in_each_step_file(files_with_tags, cubit,
verbose)`: load every entry, then `separate body all` and `validate vol all`,
and return the entries together with `sum(all_vols)` — the sum of the volume
ids of the last post-unite snapshot (a `NameError` when no entry ran, since
the loop variable was never assigned). -/
def find_number_of_volumes_in_each_step_file (K : Kernel)
    (fileExists : String → Bool) (files_with_tags : List Entry) (st : St) :
    St × Except Err (List Entry × Nat) :=
  match fnovGo K fileExists files_with_tags st none with
  | (st1, .error err) => (st1, .error err)
  | (st1, .ok (entries', lastVols)) =>
    let st2 := (st1.cmd "separate body all").cmd "validate vol all"
    match lastVols with
    | none => (st2, .error (Err.nameError "name all_vols is not defined"))
    | some all_vols => (st2, .ok (entries', all_vols.sum))

/-! ## Topology cleanup and export (`core.py` 184-198, 252-314) -/

def imprint_geometry (st : St) : St :=
  st.cmd "imprint body all"

/-- `merge_geometry(merge_tolerance, cubit)`; the tolerance is spliced as
`str(merge_tolerance)` renders it. -/
def merge_geometry (merge_tolerance : String) (st : St) : St :=
  (st.cmd ("merge tolerance " ++ merge_tolerance)).cmd "merge vol all group_results"

/-- `create_tet_mesh(geometry_details, cubit)`. -/
def create_tet_mesh (geometry_details : List Entry) (st : St) : St :=
  let st := st.cmd "Trimesher volume gradation 1.3"
  let st := st.cmd "volume all size auto factor 5"
  geometry_details.foldl (fun st e =>
    match e.tet_mesh with
    | none => st
    | some directive =>
      e.volumes.foldl (fun st v =>
        let st := st.cmd ("volume " ++ toString v ++ " size auto factor 6")
        let st := st.cmd "volume all scheme tetmesh proximity layers off"
        let st := st.cmd ("volume " ++ toString v ++ " " ++ directive)
        st.cmd ("mesh volume " ++ toString v)) st) st

/-- `save_output_files(...)`: attribute flag, dagmc export at the given
faceting tolerance (with or without the watertight pass), tet meshing, then
the optional exo export and cubit save.  The JSON sidecar write and the
`mkdir` are filesystem effects with no kernel command and are not modelled. -/
def save_output_files (make_watertight : Bool) (geometry_details : List Entry)
    (h5m_filename : String) (cubit_filename : Option String)
    (faceting_tolerance : String) (exo_filename : Option String) (st : St) : St :=
  let st := st.cmd "set attribute on"
  let st :=
    if make_watertight then
      st.cmd ("export dagmc \"" ++ h5m_filename ++ "\" faceting_tolerance " ++
        faceting_tolerance ++ " make_watertight")
    else
      st.cmd ("export dagmc \"" ++ h5m_filename ++ "\" faceting_tolerance " ++
        faceting_tolerance)
  let st := create_tet_mesh geometry_details st
  let st :=
    match exo_filename with
    | some f => st.cmd ("export mesh \"" ++ f ++ "\" overwrite")
    | none => st
  match cubit_filename with
  | some f => st.cmd ("save as \"" ++ f ++ "\" overwrite")
  | none => st

/-! ## Top-level call (`core.py` 15-181) -/

def h5mExtMsg (f : String) : String :=
  "The h5m_filename argument should end with \".h5m\". The provided " ++
  "h5m_filename \"" ++ f ++ "\" does not end with .h5m"

def exoExtMsg (f : String) : String :=
  "The exo_filename argument should end with \".exo\". The provided " ++
  "exo_filename \"" ++ f ++ "\" does not end with .exo"

def cubExtMsg (f : String) : String :=
  "The cubit_filename argument should end with \".cub\" or \".cub5\". " ++
  "The provided cubit_filename \"" ++ f ++ "\" does not end  with either"

def cubitImportMsg (p : String) : String :=
  "import cubit failed, cubit was not importable from the provided path " ++ p

/-- Extension validity of an optional filename argument (`None` passes). -/
def extOk (f : Option String) (sufs : List String) : Bool :=
  match f with
  | none => true
  | some f => sufs.contains (pySuffix f)

/-- `cad_to_h5m(...)`.  `cubitAvailable` models whether `import cubit`
succeeds from the configured path and `fileExists` models
`Path(...).is_file()`.  The source's `h5m_filename is None` escape is not
modelled since the argument has a string default and every claim quantifies
over strings.  `geometry_details_filename` only triggers a JSON file write
(no kernel command) and is omitted.  On success Python returns
`h5m_filename`. -/
def cad_to_h5m (K : Kernel) (cubitAvailable : Bool)
    (fileExists : String → Bool) (files_with_tags : List Entry)
    (h5m_filename : String)
    (cubit_path : String)
    (cubit_filename : Option String)
    (merge_tolerance : String)
    (faceting_tolerance : String)
    (make_watertight : Bool)
    (imprint : Bool)
    (surface_reflectivity_name : String)
    (exo_filename : Option String)
    (implicit_complement_material_tag : Option String)
    (verbose : Bool)
    (graveyard : Option Int) : St × Except Err String :=
  if pySuffix h5m_filename ≠ ".h5m" then
    (⟨[]⟩, .error (Err.valueError (h5mExtMsg h5m_filename)))
  else if !(extOk exo_filename [".exo"]) then
    (⟨[]⟩, .error (Err.valueError (exoExtMsg (exo_filename.getD ""))))
  else if !(extOk cubit_filename [".cub", ".cub5"]) then
    (⟨[]⟩, .error (Err.valueError (cubExtMsg (cubit_filename.getD ""))))
  else if !cubitAvailable then
    (⟨[]⟩, .error (Err.importError (cubitImportMsg cubit_path)))
  else
    let st : St :=
      ⟨if verbose then []
       else ["set echo off", "set info off", "set journal off", "set warning off"]⟩
    match find_number_of_volumes_in_each_step_file K fileExists files_with_tags st with
    | (st, .error err) => (st, .error err)
    | (st, .ok (geometry_details, total_number_of_volumes)) =>
      match apply_transforms geometry_details st with
      | (st, some err) => (st, .error err)
      | (st, none) =>
        match tag_geometry_with_mats K geometry_details
            implicit_complement_material_tag graveyard st with
        | (st, some err) => (st, .error err)
        | (st, none) =>
          let st :=
            if imprint && decide (total_number_of_volumes > 1) then
              imprint_geometry st
            else st
          let st :=
            if total_number_of_volumes > 1 then merge_geometry merge_tolerance st
            else st
          match find_reflecting_surfaces_of_reflecting_wedge K geometry_details
              surface_reflectivity_name st with
          | (st, .error err) => (st, .error err)
          | (st, .ok (geometry_details, _)) =>
            let st := save_output_files make_watertight geometry_details
              h5m_filename cubit_filename faceting_tolerance exo_filename st
            let st := st.cmd "reset"
            (st, .ok h5m_filename)

/-! ## Derived notions used in the theorem statements -/

/-- The single command a tagged entry contributes in
`tag_geometry_with_mats`. -/
def entryTagCmd (e : Entry) : String :=
  matGroupCmd (e.material_tag.getD "") (volsJoin e)

/-- The commands the helper for one transforms-dictionary key issues
(used to state that `apply_transforms` follows dictionary insertion order). -/
def transformCmds (e : Entry) (t : Transform) : List String :=
  (transformStep e t).1

/-- All transform commands of one entry, in dictionary insertion order. -/
def entryTransformCmds (e : Entry) : List String :=
  match e.transforms with
  | none => []
  | some ts => catMap (transformCmds e) ts

/-- The trailing commands of the graveyard block for the optional
implicit-complement companion group. -/
def ictTail (ict : Option String) (gvn : Nat) : List String :=
  match ict with
  | none => []
  | some ictag => [compGroupCmd ictag gvn]

/-- The surfaces the reconciliation pass will add: live surfaces absent from
the record. -/
def newReflSurfs (d : List (Nat × Bool)) (live : List Nat) : List Nat :=
  live.filter (fun s => !((recKeys d).contains s))

/-- Commands that are neither a material group command nor an export. -/
def benign (c : String) : Prop :=
  strStartsWith c "group \"mat:" = false ∧ strStartsWith c "export" = false

/-! ## Concrete scenarios for the closed theorems -/

/-- A kernel all of whose queries return nothing. -/
def emptyKernel : Kernel := fun _ =>
  { parse := fun _ _ => [], isPlanar := fun _ => false, entityName := fun _ => "" }

/-- A kernel that reports no volumes before the first import command and a
single volume, numbered 2, from then on. -/
def oneVolKernel : Kernel := fun hist =>
  { parse := fun ty filt =>
      if ty = "volume" && filt = "all" && decide (hist.length ≥ 2) then [2] else []
    isPlanar := fun _ => false
    entityName := fun _ => "" }

/-- One tagged input file for the `oneVolKernel` scenario. -/
def oneVolEntries : List Entry :=
  [{ cad_filename := "a.stp", material_tag := some "steel" }]

/-- A kernel whose designated wedge volume 1 has a single live surface 7
that is not planar and has three vertices. -/
def triSurfKernel : Kernel := fun _ =>
  { parse := fun ty filt =>
      if ty = "surface" && filt = " in volume 1" then [7]
      else if ty = "vertex" && filt = " in surface 7" then [9, 10, 11]
      else []
    isPlanar := fun _ => false
    entityName := fun _ => "" }

/-- A wedge entry with an empty prior surface-reflectivity record. -/
def emptyRecWedge : List Entry :=
  [{ cad_filename := "w.stp", surface_reflectivity := some [], volumes := [1] }]

/-- A wedge entry remembering surface 3 as reflecting while the live
surface set of its volume no longer contains 3. -/
def staleRecWedge : List Entry :=
  [{ cad_filename := "w.stp", surface_reflectivity := some [(3, true)], volumes := [1] }]

/-- A kernel whose wedge volume has the two live surfaces 4 and 7. -/
def twoSurfKernel : Kernel := fun _ =>
  { parse := fun ty _ => if ty = "surface" then [4, 7] else []
    isPlanar := fun _ => false
    entityName := fun _ => "" }

/-- A wedge entry remembering live surface 4 as reflecting. -/
def liveRecWedge : List Entry :=
  [{ cad_filename := "w.stp", surface_reflectivity := some [(4, true)], volumes := [1] }]

/-- An entry whose transforms dictionary lists `scale` before `move`. -/
def scaleThenMoveEntry : Entry :=
  { cad_filename := "a.stp", volumes := [1],
    transforms := some [Transform.scale 2, Transform.move (MoveSpec.uniform [0, 0, 10])] }

/-! ## General lemmas -/

theorem strDataAppend (s t : String) : (s ++ t).data = s.data ++ t.data := rfl

theorem isPrefixOf_append_same : ∀ (p a b : List Char),
    (p ++ a).isPrefixOf (p ++ b) = a.isPrefixOf b
  | [], _, _ => rfl
  | c :: p, a, b => by
    simp [List.isPrefixOf, isPrefixOf_append_same p a b]

/-- A quote-terminated pattern can only be a prefix of `t ++ '"' :: r` by
matching `t` exactly, when neither side contains a quote of its own. -/
theorem quote_end_eq : ∀ (g t r : List Char),
    (g ++ ['"']).isPrefixOf (t ++ '"' :: r) = true → '"' ∉ g → '"' ∉ t → g = t
  | [], [], _, _, _, _ => rfl
  | [], c :: t', r, h, _, ht => by
    exfalso
    simp [List.isPrefixOf] at h
    exact ht (List.mem_cons.mpr (Or.inl h))
  | c :: g', [], r, h, hg, _ => by
    exfalso
    simp [List.isPrefixOf] at h
    exact hg (by simp [h.1])
  | c :: g', c₂ :: t', r, h, hg, ht => by
    simp only [List.cons_append, List.isPrefixOf, Bool.and_eq_true, beq_iff_eq] at h
    have := quote_end_eq g' t' r h.2 (fun hm => hg (by simp [hm]))
      (fun hm => ht (by simp [hm]))
    rw [h.1, this]

/-- A group command for a quote-free tag other than `Graveyard` never starts
with the `mat:Graveyard` group header. -/
theorem matGroupCmd_not_graveyard (t w : String) (hq : '"' ∉ t.data)
    (hl : strToLower t ≠ "graveyard") :
    strStartsWith (matGroupCmd t w) "group \"mat:Graveyard\"" = false := by
  by_contra hcon
  rw [Bool.not_eq_false] at hcon
  unfold strStartsWith matGroupCmd at hcon
  have hd : ("group \"mat:" ++ t ++ "\" add volume " ++ w).data =
      "group \"mat:".data ++ (t.data ++ '"' :: (" add volume " ++ w).data) := by
    simp [strDataAppend, List.append_assoc]
  have hp : ("group \"mat:Graveyard\"" : String).data =
      "group \"mat:".data ++ ("Graveyard".data ++ ['"']) := rfl
  rw [hd, hp, isPrefixOf_append_same] at hcon
  have := quote_end_eq "Graveyard".data t.data _ hcon (by decide) hq
  have ht : t = "Graveyard" := by
    cases t with
    | mk d => exact congrArg String.mk this.symm
  rw [ht] at hl
  exact hl rfl

/-- If `a ++ '"' :: r` equals `t ++ s` and `a` is shorter than `t`, the quote
lands inside `t`. -/
theorem quote_mem_of_eq : ∀ (a t r s : List Char),
    a.length < t.length → a ++ '"' :: r = t ++ s → '"' ∈ t
  | [], [], _, _, hl, _ => absurd hl (by simp)
  | [], c :: t', r, s, _, he => by
    rw [List.nil_append, List.cons_append] at he
    injection he with h1 _
    rw [← h1]
    simp
  | _ :: _, [], _, _, hl, _ => absurd hl (by simp)
  | c :: a', c₂ :: t', r, s, hl, he => by
    rw [List.cons_append, List.cons_append] at he
    injection he with _ h2
    have := quote_mem_of_eq a' t' r s (by simpa using hl) h2
    simp [this]

/-- A group command for a tag of at most 27 characters never starts with the
group header of a quote-free tag longer than 27 characters. -/
theorem long_tag_not_sw (t t' w : String) (hlt : t.length > 27)
    (hle : t'.length ≤ 27) (hq : '"' ∉ t.data) :
    strStartsWith (matGroupCmd t' w) ("group \"mat:" ++ t ++ "\"") = false := by
  by_contra hcon
  rw [Bool.not_eq_false] at hcon
  unfold strStartsWith matGroupCmd at hcon
  have hd : ("group \"mat:" ++ t' ++ "\" add volume " ++ w).data =
      "group \"mat:".data ++ (t'.data ++ '"' :: (" add volume " ++ w).data) := by
    simp [strDataAppend, List.append_assoc]
  have hp : ("group \"mat:" ++ t ++ "\"").data =
      "group \"mat:".data ++ (t.data ++ ['"']) := by
    simp [strDataAppend, List.append_assoc]
  rw [hd, hp, isPrefixOf_append_same] at hcon
  rw [List.isPrefixOf_iff_prefix] at hcon
  obtain ⟨tail, htail⟩ := hcon
  rw [List.append_assoc] at htail
  exact hq (quote_mem_of_eq t'.data t.data _ _
    (by
      have h1 : t.data.length = t.length := rfl
      have h2 : t'.data.length = t'.length := rfl
      omega)
    htail.symm)

/-! ## Lemmas on the material tagger -/

theorem tagEntry_short (K : Kernel) (ict : Option String) (st : St) (e : Entry)
    (t : String) (h1 : e.material_tag = some t) (h2 : t.length ≤ 27)
    (h3 : strToLower t ≠ "graveyard") :
    tagEntry K ict st e = (st.cmd (matGroupCmd t (volsJoin e)), none) := by
  simp [tagEntry, h1, h3, show ¬ t.length > 27 by omega]

theorem tagEntry_long (K : Kernel) (ict : Option String) (st : St) (e : Entry)
    (t : String) (ht : e.material_tag = some t) (hlen : t.length > 27) :
    tagEntry K ict st e = (st, some (Err.valueError (tagTooLongMsg t))) := by
  simp [tagEntry, ht, hlen]

theorem tagFold_all_short (K : Kernel) (ict : Option String) :
    ∀ (gd : List Entry) (st : St),
    (∀ e ∈ gd, e.material_tag.isSome = true ∧
      (e.material_tag.getD "").length ≤ 27 ∧
      strToLower (e.material_tag.getD "") ≠ "graveyard") →
    tagFold K ict st gd = (⟨st.trace ++ gd.map entryTagCmd⟩, none)
  | [], st, _ => by simp [tagFold]
  | e :: rest, st, h => by
    obtain ⟨hs, hlen, hgy⟩ := h e (by simp)
    obtain ⟨t, ht⟩ := Option.isSome_iff_exists.mp hs
    rw [ht] at hlen hgy
    simp only [Option.getD_some] at hlen hgy
    rw [tagFold, tagEntry_short K ict st e t ht hlen hgy]
    dsimp only
    rw [tagFold_all_short K ict rest (st.cmd (matGroupCmd t (volsJoin e)))
      (fun e' he' => h e' (by simp [he']))]
    simp [St.cmd, entryTagCmd, ht, List.append_assoc]

theorem tagFold_long (K : Kernel) (ict : Option String) :
    ∀ (gd : List Entry) (st : St),
    (∀ e ∈ gd, e.material_tag.isSome = true ∧
      strToLower (e.material_tag.getD "") ≠ "graveyard") →
    (∃ e ∈ gd, (e.material_tag.getD "").length > 27) →
    ∃ cmds tg,
      tagFold K ict st gd = (⟨st.trace ++ cmds⟩, some (Err.valueError (tagTooLongMsg tg))) ∧
      tg.length > 27 ∧ ∀ c ∈ cmds, ∃ t' w, c = matGroupCmd t' w ∧ t'.length ≤ 27
  | [], _, _, hex => absurd hex (by simp)
  | e :: rest, st, htags, hex => by
    obtain ⟨hs, hgy⟩ := htags e (by simp)
    obtain ⟨t, ht⟩ := Option.isSome_iff_exists.mp hs
    rw [ht] at hgy
    simp only [Option.getD_some] at hgy
    by_cases hlen : t.length > 27
    · refine ⟨[], t, ?_, hlen, by simp⟩
      rw [tagFold, tagEntry_long K ict st e t ht hlen]
      simp
    · rw [Nat.not_lt] at hlen
      have hrest : ∃ e₀ ∈ rest, (e₀.material_tag.getD "").length > 27 := by
        obtain ⟨e₀, he₀, hl₀⟩ := hex
        rcases List.mem_cons.mp he₀ with h | h
        · exfalso
          rw [h, ht] at hl₀
          simp only [Option.getD_some] at hl₀
          omega
        · exact ⟨e₀, h, hl₀⟩
      obtain ⟨cmds, tg, heq, htg, hall⟩ :=
        tagFold_long K ict rest (st.cmd (matGroupCmd t (volsJoin e)))
          (fun e' he' => htags e' (by simp [he'])) hrest
      refine ⟨matGroupCmd t (volsJoin e) :: cmds, tg, ?_, htg, ?_⟩
      · rw [tagFold, tagEntry_short K ict st e t ht hlen hgy]
        dsimp only
        rw [heq]
        simp [St.cmd, List.append_assoc]
      · intro c hc
        rcases List.mem_cons.mp hc with h | h
        · exact ⟨t, volsJoin e, h, hlen⟩
        · exact hall c h

theorem graveyardCmds_eq (gd : List Entry) (ict : Option String) (L : Int)
    (st1 : St) (lastE : Entry) (n : Nat)
    (h1 : gd.getLast? = some lastE) (h2 : lastE.volumes.getLast? = some n) :
    graveyardCmds gd ict L st1 =
      (⟨st1.trace ++
        ["create brick x " ++ toString L,
         "create brick x " ++ toString (L + 5),
         "subtract vol " ++ toString (n + 1) ++ "from vol " ++ toString (n + 2),
         matGroupCmd "Graveyard" (toString (n + 3))] ++ ictTail ict (n + 3)⟩, none) := by
  cases ict <;> simp [graveyardCmds, h1, h2, ictTail, St.cmd, List.append_assoc]

/-! ## Lemmas on the transform applier -/

theorem transformKeyLoop_cmds (e : Entry) : ∀ (ts : List Transform),
    (transformKeyLoop e ts).2 = none →
    (transformKeyLoop e ts).1 = catMap (transformCmds e) ts
  | [], _ => rfl
  | t :: rest, h => by
    rcases hm : transformStep e t with ⟨cmds, err⟩
    simp only [transformKeyLoop, hm] at h ⊢
    cases err with
    | some er => simp at h
    | none =>
      rcases hr : transformKeyLoop e rest with ⟨cs, err2⟩
      simp only [hr] at h ⊢
      have ih := transformKeyLoop_cmds e rest (by rw [hr]; exact h)
      rw [hr] at ih
      simp only at ih
      rw [catMap, ih, transformCmds, hm]

theorem applyTransformsGo_trace : ∀ (gd : List Entry) (st : St),
    (applyTransformsGo st gd).2 = none →
    (applyTransformsGo st gd).1.trace = st.trace ++ catMap entryTransformCmds gd
  | [], st, _ => by simp [applyTransformsGo, catMap]
  | e :: rest, st, h => by
    cases hts : e.transforms with
    | none =>
      simp only [applyTransformsGo, hts] at h ⊢
      rw [applyTransformsGo_trace rest st h]
      simp [entryTransformCmds, hts, catMap]
    | some ts =>
      rcases hk : transformKeyLoop e ts with ⟨cmds, err⟩
      simp only [applyTransformsGo, hts, hk] at h ⊢
      cases err with
      | some er => simp at h
      | none =>
        simp only at h ⊢
        rw [applyTransformsGo_trace rest ⟨st.trace ++ cmds⟩ h]
        have hcs : cmds = catMap (transformCmds e) ts := by
          have h2 := transformKeyLoop_cmds e ts (by rw [hk])
          rwa [hk] at h2
        rw [hcs]
        simp [entryTransformCmds, hts, catMap, List.append_assoc]

/-! ## Lemmas on the reflecting-surface reconciliation -/

theorem containsIff (l : List Nat) (a : Nat) : l.contains a = true ↔ a ∈ l := by
  simp [List.contains, List.elem_iff]

theorem delLoopGo_mutated (live : List Nat) (d acc : List (Nat × Bool)) :
    (delLoopGo live d acc true).2 =
      some (Err.runtimeError "dictionary changed size during iteration") := by
  cases d <;> simp [delLoopGo]

theorem delLoopGo_ok_of_all : ∀ (d acc : List (Nat × Bool)) (live : List Nat),
    (∀ p ∈ d, p.2 = true → p.1 ∈ live) →
    delLoopGo live d acc false = (acc ++ d, none)
  | [], acc, live, _ => by simp [delLoopGo]
  | (k, b) :: rest, acc, live, h => by
    rw [delLoopGo]
    have hc : (b && !(live.contains k)) = false := by
      cases b with
      | false => rfl
      | true =>
        have hk : k ∈ live := h (k, true) (by simp) rfl
        simp [containsIff, hk]
    rw [if_neg (by simp), if_neg (by rw [hc]; simp)]
    rw [delLoopGo_ok_of_all rest (acc ++ [(k, b)]) live
      (fun p hp hb => h p (by simp [hp]) hb)]
    simp

theorem delLoopGo_none_inv : ∀ (d acc : List (Nat × Bool)) (live : List Nat),
    (delLoopGo live d acc false).2 = none →
    delLoopGo live d acc false = (acc ++ d, none) ∧
      ∀ p ∈ d, p.2 = true → p.1 ∈ live
  | [], acc, live, _ => by simp [delLoopGo]
  | (k, b) :: rest, acc, live, h => by
    rw [delLoopGo] at h
    rw [if_neg (by simp)] at h
    by_cases hc : (b && !(live.contains k)) = true
    · rw [if_pos hc] at h
      rw [delLoopGo_mutated live rest acc] at h
      exact absurd h (by simp)
    · rw [Bool.not_eq_true] at hc
      rw [if_neg (by rw [hc]; simp)] at h
      obtain ⟨heq, hall⟩ := delLoopGo_none_inv rest (acc ++ [(k, b)]) live h
      constructor
      · rw [delLoopGo, if_neg (by simp), if_neg (by rw [hc]; simp), heq]
        simp
      · intro p hp hb
        rcases List.mem_cons.mp hp with h1 | h1
        · rw [h1]
          rw [h1] at hb
          simp only at hb
          have hck : live.contains k = true := by
            cases hlk : live.contains k with
            | true => rfl
            | false => rw [hb, hlk] at hc; simp at hc
          exact (containsIff live k).mp hck
        · exact hall p h1 hb

theorem recKeys_append (a b : List (Nat × Bool)) :
    recKeys (a ++ b) = recKeys a ++ recKeys b := by
  simp [recKeys]

theorem addNewGo_cons_skip (name : String) (s : Nat) (rest : List Nat)
    (d : List (Nat × Bool)) (hs : (recKeys d).contains s = true) :
    addNewGo name d (s :: rest) = addNewGo name d rest := by
  rw [addNewGo, if_pos hs]

theorem addNewGo_cons_add (name : String) (s : Nat) (rest : List Nat)
    (d : List (Nat × Bool)) (hs : (recKeys d).contains s = false) :
    addNewGo name d (s :: rest) =
      ((addNewGo name (d ++ [(s, true)]) rest).1,
        grpSurfCmd name s :: visSurfCmd s ::
          (addNewGo name (d ++ [(s, true)]) rest).2) := by
  rw [addNewGo, if_neg (by rw [hs]; simp)]

theorem addNewGo_keys_mono (name : String) : ∀ (live : List Nat)
    (d : List (Nat × Bool)) (k : Nat),
    k ∈ recKeys d → k ∈ recKeys (addNewGo name d live).1
  | [], _, _, hk => hk
  | s :: rest, d, k, hk => by
    cases hs : (recKeys d).contains s with
    | true =>
      rw [addNewGo_cons_skip name s rest d hs]
      exact addNewGo_keys_mono name rest d k hk
    | false =>
      rw [addNewGo_cons_add name s rest d hs]
      exact addNewGo_keys_mono name rest (d ++ [(s, true)]) k
        (by rw [recKeys_append]; exact List.mem_append.mpr (Or.inl hk))

theorem addNewGo_keys_live (name : String) : ∀ (live : List Nat)
    (d : List (Nat × Bool)) (s : Nat),
    s ∈ live → s ∈ recKeys (addNewGo name d live).1
  | [], _, _, hs => absurd hs (by simp)
  | s₀ :: rest, d, s, hs => by
    cases h0 : (recKeys d).contains s₀ with
    | true =>
      rw [addNewGo_cons_skip name s₀ rest d h0]
      rcases List.mem_cons.mp hs with h1 | h1
      · exact addNewGo_keys_mono name rest d s (h1 ▸ (containsIff _ _).mp h0)
      · exact addNewGo_keys_live name rest d s h1
    | false =>
      rw [addNewGo_cons_add name s₀ rest d h0]
      rcases List.mem_cons.mp hs with h1 | h1
      · exact addNewGo_keys_mono name rest (d ++ [(s₀, true)]) s
          (by rw [recKeys_append, h1]; simp [recKeys])
      · exact addNewGo_keys_live name rest (d ++ [(s₀, true)]) s h1

theorem addNewGo_mem_inv (name : String) : ∀ (live : List Nat)
    (d : List (Nat × Bool)) (p : Nat × Bool),
    p ∈ (addNewGo name d live).1 → p ∈ d ∨ (p.1 ∈ live ∧ p.2 = true)
  | [], _, _, hp => Or.inl hp
  | s :: rest, d, p, hp => by
    cases hs : (recKeys d).contains s with
    | true =>
      rw [addNewGo_cons_skip name s rest d hs] at hp
      rcases addNewGo_mem_inv name rest d p hp with h | h
      · exact Or.inl h
      · exact Or.inr ⟨by simp [h.1], h.2⟩
    | false =>
      rw [addNewGo_cons_add name s rest d hs] at hp
      simp only at hp
      rcases addNewGo_mem_inv name rest (d ++ [(s, true)]) p hp with h | h
      · rcases List.mem_append.mp h with h1 | h1
        · exact Or.inl h1
        · simp at h1
          subst h1
          exact Or.inr ⟨by simp, rfl⟩
      · exact Or.inr ⟨by simp [h.1], h.2⟩

theorem addNewGo_stable (name : String) : ∀ (live : List Nat)
    (d : List (Nat × Bool)),
    (∀ s ∈ live, s ∈ recKeys d) → addNewGo name d live = (d, [])
  | [], _, _ => rfl
  | s :: rest, d, h => by
    rw [addNewGo_cons_skip name s rest d ((containsIff _ _).mpr (h s (by simp)))]
    exact addNewGo_stable name rest d (fun s₁ hs₁ => h s₁ (by simp [hs₁]))

theorem addNewGo_nodup (name : String) : ∀ (live : List Nat)
    (d : List (Nat × Bool)), live.Nodup →
    addNewGo name d live =
      (d ++ (live.filter (fun s => !((recKeys d).contains s))).map (fun s => (s, true)),
       catMap (fun s => [grpSurfCmd name s, visSurfCmd s])
         (live.filter (fun s => !((recKeys d).contains s))))
  | [], d, _ => by simp [addNewGo, catMap]
  | s :: rest, d, hnd => by
    have hnd2 := (List.nodup_cons.mp hnd).2
    have hsr : s ∉ rest := (List.nodup_cons.mp hnd).1
    cases hs : (recKeys d).contains s with
    | true =>
      rw [addNewGo_cons_skip name s rest d hs]
      rw [addNewGo_nodup name rest d hnd2]
      rw [List.filter_cons]
      rw [show (!((recKeys d).contains s)) = false by rw [hs]; rfl]
      simp
    | false =>
      rw [addNewGo_cons_add name s rest d hs]
      rw [addNewGo_nodup name rest (d ++ [(s, true)]) hnd2]
      have hfe : rest.filter (fun x => !((recKeys (d ++ [(s, true)])).contains x)) =
          rest.filter (fun x => !((recKeys d).contains x)) := by
        apply List.filter_congr
        intro x hx
        have hxs : x ≠ s := fun hxe => hsr (hxe ▸ hx)
        rw [recKeys_append]
        simp [recKeys, List.contains, List.elem_iff, hxs]
      rw [hfe]
      rw [List.filter_cons]
      rw [show (!((recKeys d).contains s)) = true by rw [hs]; rfl]
      simp [catMap, List.append_assoc]

theorem entry_set_sr_id (e : Entry) (d : List (Nat × Bool))
    (h : e.surface_reflectivity = some d) :
    { e with surface_reflectivity := some d } = e := by
  cases e
  simp only at h
  simp [h]

theorem pairOkInv {α β γ : Type} {a a' : α} {b b' : β} {c c' : γ}
    (h : ((a, Except.ok (b, c)) : α × Except Err (β × γ)) = (a', Except.ok (b', c'))) :
    a = a' ∧ b = b' ∧ c = c' := by
  injection h with h1 h2
  injection h2 with h3
  injection h3 with h4 h5
  exact ⟨h1, h4, h5⟩

/-- A run of the reconciliation on a wedge entry whose record already covers
the live surface set, with all its reflecting surfaces live, changes
nothing. -/
theorem frswGo_noop (K : Kernel) (name : String) (st2 : St) (e2 : Entry)
    (rest : List Entry) (d2 : List (Nat × Bool))
    (hd : e2.surface_reflectivity = some d2)
    (htrue : ∀ p ∈ d2, p.2 = true →
      p.1 ∈ (K st2.trace).parse "surface" (" in volume " ++ volsJoin e2))
    (hkeys : ∀ s ∈ (K st2.trace).parse "surface" (" in volume " ++ volsJoin e2),
      s ∈ recKeys d2) :
    frswGo K name st2 (e2 :: rest) = (st2, .ok (e2 :: rest, some (volsJoin e2))) := by
  have hdel : delLoop d2 ((K st2.trace).parse "surface"
      (" in volume " ++ volsJoin e2)) = (d2, none) := by
    have h3 := delLoopGo_ok_of_all d2 [] _ htrue
    simpa [delLoop] using h3
  have hadd := addNewGo_stable name
    ((K st2.trace).parse "surface" (" in volume " ++ volsJoin e2)) d2 hkeys
  simp only [frswGo, hd, hdel, hadd]
  rw [entry_set_sr_id e2 d2 hd]
  simp

theorem frswGo_idem (K : Kernel) (name : String) :
    ∀ (gd : List Entry) (st : St) (gd1 : List Entry) (st1 : St) (wv : Option String),
    frswGo K name st gd = (st1, .ok (gd1, wv)) →
    (∀ q, (K st1.trace).parse "surface" q = (K st.trace).parse "surface" q) →
    frswGo K name st1 gd1 = (st1, .ok (gd1, wv))
  | [], st, gd1, st1, wv, h, _ => by
    rw [frswGo] at h
    obtain ⟨h1, h2, h3⟩ := pairOkInv h
    subst h1; subst h2; subst h3
    rw [frswGo]
  | e :: rest, st, gd1, st1, wv, h, hK => by
    cases hsr : e.surface_reflectivity with
    | none =>
      simp only [frswGo, hsr] at h
      rcases hr : frswGo K name st rest with ⟨st2, res⟩
      rw [hr] at h
      cases res with
      | error er => simp at h
      | ok pr =>
        rcases pr with ⟨rest2, wv2⟩
        simp only at h
        obtain ⟨h1, h2, h3⟩ := pairOkInv h
        subst h1; subst h2; subst h3
        have ih := frswGo_idem K name rest st rest2 st2 wv2 hr hK
        simp only [frswGo, hsr, ih]
    | some d =>
      simp only [frswGo, hsr] at h
      rcases hdl : delLoop d ((K st.trace).parse "surface" (" in volume " ++ volsJoin e))
        with ⟨d1, derr⟩
      rw [hdl] at h
      cases derr with
      | some er => simp at h
      | none =>
        simp only at h
        have hsnd : (delLoop d ((K st.trace).parse "surface"
            (" in volume " ++ volsJoin e))).2 = none := by rw [hdl]
        have hinv := delLoopGo_none_inv d []
          ((K st.trace).parse "surface" (" in volume " ++ volsJoin e)) hsnd
        have hd1 : d1 = d := by
          have h5 := hinv.1
          change delLoop d ((K st.trace).parse "surface"
            (" in volume " ++ volsJoin e)) = ([] ++ d, none) at h5
          rw [hdl] at h5
          have h6 := congrArg Prod.fst h5
          simpa using h6
        rw [hd1] at h
        obtain ⟨h1, h2, h3⟩ := pairOkInv h
        subst h1; subst h2; subst h3
        apply frswGo_noop
        · rfl
        · intro p hp hb
          rw [hK]
          rcases addNewGo_mem_inv name
            ((K st.trace).parse "surface" (" in volume " ++ volsJoin e)) d p hp
            with h4 | h4
          · exact hinv.2 p h4 hb
          · exact h4.1
        · intro s hs
          rw [hK] at hs
          exact addNewGo_keys_live name
            ((K st.trace).parse "surface" (" in volume " ++ volsJoin e)) d s hs

/-! ## Lemmas on the loader -/

theorem isPrefixOf_or_quote : ∀ (m a b s : List Char),
    a ++ '"' :: b = m ++ s → m.isPrefixOf a = true ∨ '"' ∈ m
  | [], _, _, _, _ => Or.inl (by simp [List.isPrefixOf])
  | c :: m', [], b, s, he => by
    rw [List.nil_append] at he
    injection he with h1 _
    exact Or.inr (by rw [← h1]; simp)
  | c :: m', a₁ :: a', b, s, he => by
    rw [List.cons_append, List.cons_append] at he
    injection he with h1 h2
    rcases isPrefixOf_or_quote m' a' b s h2 with h | h
    · left
      rw [List.isPrefixOf, h1]
      simp [h]
    · exact Or.inr (by simp [h])

/-- The loader per-file group command `group "<basename>" ...` only starts
with the `mat:` group header when the base name itself starts with `mat:`. -/
theorem groupFile_not_mat (short w : String)
    (h : strStartsWith short "mat:" = false) :
    strStartsWith ("group \"" ++ short ++ "\" add volume " ++ w)
      "group \"mat:" = false := by
  by_contra hcon
  rw [Bool.not_eq_false] at hcon
  unfold strStartsWith at hcon h
  have hd : ("group \"" ++ short ++ "\" add volume " ++ w).data =
      "group \"".data ++ (short.data ++ '"' :: (" add volume " ++ w).data) := by
    simp [strDataAppend, List.append_assoc]
  have hp : ("group \"mat:" : String).data = "group \"".data ++ "mat:".data := rfl
  rw [hd, hp, isPrefixOf_append_same] at hcon
  rw [List.isPrefixOf_iff_prefix] at hcon
  obtain ⟨tail, htail⟩ := hcon
  rcases isPrefixOf_or_quote "mat:".data short.data _ _ htail.symm with h1 | h1
  · rw [h] at h1
    exact absurd h1 (by simp)
  · exact absurd h1 (by decide)

theorem loadEntry_cmds (K : Kernel) (fx : String → Bool) (st : St) (e : Entry)
    (it : String) (hit : importTypeOf e.cad_filename = some it)
    (hfx : fx e.cad_filename = true)
    (hmat : strStartsWith (shortFileName e.cad_filename) "mat:" = false) :
    ∃ cmds res, loadEntry K fx st e = (⟨st.trace ++ cmds⟩, res) ∧
      (∀ c ∈ cmds, benign c) ∧
      (e.surface_reflectivity.isSome = true → res = .error (Err.typeError arityMsg)) ∧
      (e.surface_reflectivity.isSome = false → ∃ e2 vols, res = .ok (e2, vols)) := by
  have himp : benign ("import " ++ it ++ " \"" ++ e.cad_filename ++
      "\" separate_bodies no_surfaces no_curves no_vertices ") := by
    cases it with
    | mk d => exact ⟨rfl, rfl⟩
  have hheal : benign "healer autoheal vol all" := ⟨rfl, rfl⟩
  have hunite : ∀ x : String, benign ("unite vol " ++ x) := fun x => ⟨rfl, rfl⟩
  have hgrp : ∀ x : String, benign ("group \"" ++ shortFileName e.cad_filename ++
      "\" add volume " ++ x) := fun x => ⟨groupFile_not_mat _ x hmat, rfl⟩
  simp only [loadEntry, hit, hfx, Bool.not_true, St.cmd]
  rw [if_neg (by simp)]
  split <;> split
  all_goals simp only [List.append_assoc, List.singleton_append]
  all_goals refine ⟨_, _, rfl, ?_, ?_, ?_⟩
  all_goals first
    | (intro c hc
       simp only [List.mem_append, List.mem_cons, List.mem_singleton,
         List.mem_nil_iff, or_false, false_or] at hc
       casesm* _ ∨ _
       all_goals rename_i h
       all_goals rw [h]
       all_goals first
         | exact himp
         | exact hheal
         | exact hunite _
         | exact hgrp _)
    | (intro hx; rfl)
    | (intro hx; exact ⟨_, _, rfl⟩)
    | (intro hx; simp_all)

theorem fnovGo_refl_error (K : Kernel) (fx : String → Bool) :
    ∀ (es : List Entry) (st : St) (lv : Option (List Nat)),
    (∀ e ∈ es, (importTypeOf e.cad_filename).isSome = true ∧
      fx e.cad_filename = true ∧
      strStartsWith (shortFileName e.cad_filename) "mat:" = false) →
    (∃ e ∈ es, e.surface_reflectivity.isSome = true) →
    ∃ cmds, fnovGo K fx es st lv = (⟨st.trace ++ cmds⟩, .error (Err.typeError arityMsg)) ∧
      ∀ c ∈ cmds, benign c
  | [], _, _, _, hex => absurd hex (by simp)
  | e :: rest, st, lv, hfiles, hex => by
    obtain ⟨hit0, hfx, hmat⟩ := hfiles e (by simp)
    obtain ⟨it, hit⟩ := Option.isSome_iff_exists.mp hit0
    obtain ⟨cmds, res, hload, hben, herr, hok⟩ := loadEntry_cmds K fx st e it hit hfx hmat
    cases hrefl : e.surface_reflectivity.isSome with
    | true =>
      refine ⟨cmds, ?_, hben⟩
      rw [fnovGo, hload, herr hrefl]
    | false =>
      obtain ⟨e2, vols, hres⟩ := hok hrefl
      have hrest : ∃ e₀ ∈ rest, e₀.surface_reflectivity.isSome = true := by
        obtain ⟨e₀, he₀, h₀⟩ := hex
        rcases List.mem_cons.mp he₀ with h1 | h1
        · rw [h1, hrefl] at h₀
          exact absurd h₀ (by simp)
        · exact ⟨e₀, h1, h₀⟩
      obtain ⟨cmds2, hrec, hben2⟩ := fnovGo_refl_error K fx rest ⟨st.trace ++ cmds⟩
        (some vols) (fun e' he' => hfiles e' (by simp [he'])) hrest
      refine ⟨cmds ++ cmds2, ?_, ?_⟩
      · rw [fnovGo, hload, hres]
        simp only [hrec]
        simp [List.append_assoc]
      · intro c hc
        rcases List.mem_append.mp hc with h | h
        · exact hben c h
        · exact hben2 c h

theorem fnov_refl_error (K : Kernel) (fx : String → Bool) (es : List Entry)
    (st : St)
    (hfiles : ∀ e ∈ es, (importTypeOf e.cad_filename).isSome = true ∧
      fx e.cad_filename = true ∧
      strStartsWith (shortFileName e.cad_filename) "mat:" = false)
    (hex : ∃ e ∈ es, e.surface_reflectivity.isSome = true) :
    ∃ cmds, find_number_of_volumes_in_each_step_file K fx es st =
        (⟨st.trace ++ cmds⟩, .error (Err.typeError arityMsg)) ∧
      ∀ c ∈ cmds, benign c := by
  obtain ⟨cmds, hgo, hben⟩ := fnovGo_refl_error K fx es st none hfiles hex
  refine ⟨cmds, ?_, hben⟩
  rw [find_number_of_volumes_in_each_step_file, hgo]

/-! ## Claim theorems -/

/-- C1: the claim says imprint and merge commands are issued iff more than
one volume exists after loading, and in particular never when exactly one
volume was loaded.  The code instead gates both on
`sum(all_vols) > 1` — the sum of the volume ids of the loader's last
snapshot, not their count (`core.py` 508, 156-159).  Here the kernel loads a
single volume whose id is 2: `find_number_of_volumes_in_each_step_file`
records that one volume `[2]` yet returns total 2, and the full run issues
both `imprint body all` and `merge vol all group_results`. -/
theorem c1_sum_of_ids_gates_imprint_merge :
    (find_number_of_volumes_in_each_step_file oneVolKernel (fun _ => true)
        oneVolEntries ⟨[]⟩).2 =
      .ok ([{ cad_filename := "a.stp", material_tag := some "steel",
              volumes := [2] }], 2) ∧
    "imprint body all" ∈
      (cad_to_h5m oneVolKernel true (fun _ => true) oneVolEntries
        "dagmc.h5m" "/opt/" none "0.0001" "0.01" true true "reflective"
        none none true none).1.trace ∧
    "merge vol all group_results" ∈
      (cad_to_h5m oneVolKernel true (fun _ => true) oneVolEntries
        "dagmc.h5m" "/opt/" none "0.0001" "0.01" true true "reflective"
        none none true none).1.trace := by
  refine ⟨rfl, ?_, ?_⟩ <;> decide

/-- Counterexample to C2: for an entry whose transforms dictionary lists
`scale` before `move`, `apply_transforms` issues the scale command first —
the dictionary insertion order, not the claimed fixed priority
move → scale → rotate. -/
theorem c2_counterexample_insertion_order :
    apply_transforms [scaleThenMoveEntry] ⟨[]⟩ =
      (⟨["volume 1  scale  2", "volume 1  move  0 0 10",
         "healer autoheal vol all"]⟩, none) ∧
    (apply_transforms [scaleThenMoveEntry] ⟨[]⟩).1.trace ≠
      ["volume 1  move  0 0 10", "volume 1  scale  2",
       "healer autoheal vol all"] := by
  exact ⟨rfl, by decide⟩

/-- C2 (amended): for every geometry entry, `apply_transforms` issues the
kernel commands of the transforms dictionary in the order in which the keys
appear in the dictionary (insertion order), each key contributing the
commands of its helper, followed by one kernel-wide auto-heal command —
there is no reordering into a move → scale → rotate priority. -/
theorem c2_transform_cmds_in_insertion_order (gd : List Entry) (st : St)
    (h : (apply_transforms gd st).2 = none) :
    (apply_transforms gd st).1.trace =
      st.trace ++ catMap entryTransformCmds gd ++ ["healer autoheal vol all"] := by
  rw [apply_transforms] at h ⊢
  rcases hg : applyTransformsGo st gd with ⟨st2, err⟩
  simp only [hg] at h ⊢
  cases err with
  | some er => simp at h
  | none =>
    simp only [St.cmd]
    have h2 := applyTransformsGo_trace gd st (by rw [hg])
    rw [hg] at h2
    simp only at h2
    rw [h2]

theorem c2_transform_cmds_in_insertion_order_witness :
    (apply_transforms [scaleThenMoveEntry] ⟨[]⟩).1.trace =
      [] ++ catMap entryTransformCmds [scaleThenMoveEntry] ++
        ["healer autoheal vol all"] :=
  c2_transform_cmds_in_insertion_order [scaleThenMoveEntry] ⟨[]⟩ rfl

/-- Counterexample to C3: the h5m filename `"out.h5m/"` does not end in
`".h5m"`, yet `cad_to_h5m` does not raise the invalid-extension error:
`Path("out.h5m/").suffix` strips the trailing separator and yields `.h5m`,
so validation passes and the run proceeds to the kernel-import step (here it
fails with the ImportError of an unavailable kernel instead). -/
theorem c3_counterexample_trailing_separator :
    strEndsWith "out.h5m/" ".h5m" = false ∧
    cad_to_h5m emptyKernel false (fun _ => true) [] "out.h5m/"
        "/opt/" none "0.0001" "0.01" true true "reflective" none none true none =
      (⟨[]⟩, .error (Err.importError (cubitImportMsg "/opt/"))) := ⟨rfl, rfl⟩

/-- C3 (amended): for every `h5m_filename` whose pathlib suffix is not
`".h5m"` — equivalently, whose final path component, after the trailing
separators and `.` components pathlib strips, does not have `.h5m` as a
proper extension — `cad_to_h5m` raises the invalid-extension `ValueError`
before any kernel interaction: the result is that error with an empty
command trace, for every kernel oracle and even when the kernel binding
itself would fail to import. -/
theorem c3_bad_suffix_fails_before_kernel (K : Kernel) (avail : Bool)
    (fx : String → Bool) (es : List Entry) (h5m cp : String)
    (cf : Option String) (mt ft : String) (mw imp : Bool) (nm : String)
    (exo ict : Option String) (vb : Bool) (gy : Option Int)
    (h : pySuffix h5m ≠ ".h5m") :
    cad_to_h5m K avail fx es h5m cp cf mt ft mw imp nm exo ict vb gy =
      (⟨[]⟩, .error (Err.valueError (h5mExtMsg h5m))) := by
  simp [cad_to_h5m, h]

theorem c3_bad_suffix_fails_before_kernel_witness :
    pySuffix "out.txt" ≠ ".h5m" ∧
    cad_to_h5m emptyKernel true (fun _ => true) [] "out.txt" "/opt/" none
        "0.0001" "0.01" true true "reflective" none none true none =
      (⟨[]⟩, .error (Err.valueError (h5mExtMsg "out.txt"))) :=
  ⟨by decide, c3_bad_suffix_fails_before_kernel _ _ _ _ _ _ _ _ _ _ _ _ _ _ _ _
    (by decide)⟩

/-- C4: for every geometry entry whose material tag is longer than 27
characters, `tag_geometry_with_mats` fails with the tag-too-long
`ValueError` and no group command for that tag is issued: every command sent
before the error is the group command of an earlier entry with a tag of at
most 27 characters, and none of them starts with `group "mat:<tag>"`.  The
side conditions pin the scenario to material-tagged entries (the tagless
path groups under kernel entity names), to tags that are not the
case-insensitive `graveyard` special case, and to a quote-free tag, which
makes the group-header comparison unambiguous. -/
theorem c4_long_tag_fails_without_group_cmd (K : Kernel) (gd : List Entry)
    (ict : Option String) (gy : Option Int) (st : St) (e : Entry) (t : String)
    (he : e ∈ gd) (ht : e.material_tag = some t) (hlen : t.length > 27)
    (hq : '"' ∉ t.data)
    (htags : ∀ e' ∈ gd, e'.material_tag.isSome = true ∧
      strToLower (e'.material_tag.getD "") ≠ "graveyard") :
    ∃ cmds tg,
      tag_geometry_with_mats K gd ict gy st =
        (⟨st.trace ++ cmds⟩, some (Err.valueError (tagTooLongMsg tg))) ∧
      tg.length > 27 ∧
      ∀ c ∈ cmds, strStartsWith c ("group \"mat:" ++ t ++ "\"") = false := by
  obtain ⟨cmds, tg, heq, htg, hall⟩ := tagFold_long K ict gd st htags
    ⟨e, he, by rw [ht]; simpa using hlen⟩
  refine ⟨cmds, tg, ?_, htg, ?_⟩
  · rw [tag_geometry_with_mats, heq]
  · intro c hc
    obtain ⟨t2, w, hcw, hle⟩ := hall c hc
    rw [hcw]
    exact long_tag_not_sw t t2 w hlen hle hq

theorem c4_long_tag_fails_without_group_cmd_witness :
    ∃ cmds tg,
      tag_geometry_with_mats emptyKernel
        [{ cad_filename := "a.stp", material_tag := some "steel", volumes := [1] },
         { cad_filename := "b.stp",
           material_tag := some "abcdefghijklmnopqrstuvwxyz01", volumes := [3] }]
        none none ⟨[]⟩ =
        (⟨[] ++ cmds⟩, some (Err.valueError (tagTooLongMsg tg))) ∧
      tg.length > 27 ∧
      ∀ c ∈ cmds, strStartsWith c
        ("group \"mat:" ++ "abcdefghijklmnopqrstuvwxyz01" ++ "\"") = false :=
  c4_long_tag_fails_without_group_cmd emptyKernel
    [{ cad_filename := "a.stp", material_tag := some "steel", volumes := [1] },
     { cad_filename := "b.stp",
       material_tag := some "abcdefghijklmnopqrstuvwxyz01", volumes := [3] }]
    none none ⟨[]⟩
    { cad_filename := "b.stp",
      material_tag := some "abcdefghijklmnopqrstuvwxyz01", volumes := [3] }
    "abcdefghijklmnopqrstuvwxyz01"
    (by decide) rfl (by decide) (by decide)
    (by
      intro e' he'
      simp only [List.mem_cons, List.mem_singleton, List.mem_nil_iff,
        or_false] at he'
      rcases he' with rfl | rfl
      · exact ⟨rfl, by decide⟩
      · exact ⟨rfl, by decide⟩)

/-- C5: for every configured graveyard side length `L`, non-empty entry list
with a last recorded volume id `n`, graveyard synthesis issues exactly the
commands creating an inner cube of side `L`, an outer cube of side `L + 5`,
subtracting the inner volume `n + 1` from the outer volume `n + 2`, and
adding exactly one volume — the one numbered three past the last recorded
volume id, `n + 3` — to the group `mat:Graveyard`; no earlier tagging
command touches that group (earlier entries carry quote-free tags other than
the case-insensitive `graveyard`), and the only other possible command is
the implicit-complement companion, which targets the distinct group
`mat:<ict>_comp`. -/
theorem c5_graveyard_synthesis_cmds (K : Kernel) (gd : List Entry)
    (ict : Option String) (st : St) (L : Int) (lastE : Entry) (n : Nat)
    (h1 : gd.getLast? = some lastE) (h2 : lastE.volumes.getLast? = some n)
    (htags : ∀ e ∈ gd, e.material_tag.isSome = true ∧
      (e.material_tag.getD "").length ≤ 27 ∧
      strToLower (e.material_tag.getD "") ≠ "graveyard" ∧
      '"' ∉ (e.material_tag.getD "").data) :
    tag_geometry_with_mats K gd ict (some L) st =
      (⟨st.trace ++ gd.map entryTagCmd ++
        ["create brick x " ++ toString L,
         "create brick x " ++ toString (L + 5),
         "subtract vol " ++ toString (n + 1) ++ "from vol " ++ toString (n + 2),
         matGroupCmd "Graveyard" (toString (n + 3))] ++ ictTail ict (n + 3)⟩, none) ∧
    ∀ c ∈ gd.map entryTagCmd, strStartsWith c "group \"mat:Graveyard\"" = false := by
  constructor
  · rw [tag_geometry_with_mats,
      tagFold_all_short K ict gd st
        (fun e he => ⟨(htags e he).1, (htags e he).2.1, (htags e he).2.2.1⟩)]
    dsimp only
    rw [graveyardCmds_eq gd ict L _ lastE n h1 h2]
  · intro c hc
    rw [List.mem_map] at hc
    obtain ⟨e, he, hce⟩ := hc
    obtain ⟨_, _, hgy, hq⟩ := htags e he
    rw [← hce]
    exact matGroupCmd_not_graveyard _ _ hq hgy

theorem c5_graveyard_synthesis_cmds_witness :
    tag_geometry_with_mats emptyKernel
        [{ cad_filename := "a.stp", material_tag := some "steel", volumes := [2] }]
        none (some 10) ⟨[]⟩ =
      (⟨["group \"mat:steel\" add volume 2", "create brick x 10",
         "create brick x 15", "subtract vol 3from vol 4",
         "group \"mat:Graveyard\" add volume 5"]⟩, none) ∧
    ∀ c ∈ [{ cad_filename := "a.stp", material_tag := some "steel",
             volumes := ([2] : List Nat) }].map entryTagCmd,
      strStartsWith c "group \"mat:Graveyard\"" = false := by
  have h := c5_graveyard_synthesis_cmds emptyKernel
    [{ cad_filename := "a.stp", material_tag := some "steel", volumes := [2] }]
    none ⟨[]⟩ 10
    { cad_filename := "a.stp", material_tag := some "steel", volumes := [2] } 2
    rfl rfl (by decide)
  exact ⟨h.1, h.2⟩

/-- Counterexample to C6: with an empty prior record and a single live
surface 7 that is not planar and has three vertices, the reconciliation adds
surface 7 as a reflector and tags it anyway, although
`find_all_surfaces_of_reflecting_wedge` classifies it as a non-reflector:
the reconciliation loop of the source (`core.py` 366-375) performs no
planar-quad test. -/
theorem c6_counterexample_nonplanar_added :
    find_reflecting_surfaces_of_reflecting_wedge triSurfKernel emptyRecWedge
        "reflective" ⟨[]⟩ =
      (⟨["group \"reflective\" add surf 7", "surface 7 visibility on"]⟩,
        .ok ([{ cad_filename := "w.stp", surface_reflectivity := some [(7, true)],
                volumes := [1] }], some "1")) ∧
    find_all_surfaces_of_reflecting_wedge triSurfKernel [1] ⟨[]⟩ = [(7, false)] :=
  ⟨rfl, rfl⟩

/-- C6 (amended): when the stale-record pass completes without error, the
surfaces newly added to the per-entry record as reflectors — each tagged
into the named reflectivity group and with visibility forced on — are
exactly the live surfaces of the wedge volume absent from the prior record,
regardless of planarity or vertex count. -/
theorem c6_all_new_surfaces_added (K : Kernel) (name : String) (st : St)
    (e : Entry) (rest : List Entry) (d : List (Nat × Bool)) (live : List Nat)
    (hd : e.surface_reflectivity = some d)
    (hlive : (K st.trace).parse "surface" (" in volume " ++ volsJoin e) = live)
    (hnd : live.Nodup)
    (hdel : (delLoop d live).2 = none) :
    find_reflecting_surfaces_of_reflecting_wedge K (e :: rest) name st =
      (⟨st.trace ++ catMap (fun s => [grpSurfCmd name s, visSurfCmd s])
          (newReflSurfs d live)⟩,
        .ok ({ e with
          surface_reflectivity :=
            some (d ++ (newReflSurfs d live).map (fun s => (s, true))) } :: rest,
          some (volsJoin e))) := by
  have hdeq : delLoop d live = (d, none) := by
    have h2 := (delLoopGo_none_inv d [] live hdel).2
    have h3 := delLoopGo_ok_of_all d [] live h2
    simpa [delLoop] using h3
  rw [find_reflecting_surfaces_of_reflecting_wedge]
  simp only [frswGo, hd, hlive, hdeq, addNewGo_nodup name live d hnd, newReflSurfs]

theorem c6_all_new_surfaces_added_witness :
    find_reflecting_surfaces_of_reflecting_wedge twoSurfKernel liveRecWedge
        "reflective" ⟨[]⟩ =
      (⟨["group \"reflective\" add surf 7", "surface 7 visibility on"]⟩,
        .ok ([{ cad_filename := "w.stp",
                surface_reflectivity := some [(4, true), (7, true)],
                volumes := [1] }], some "1")) := by
  have h := c6_all_new_surfaces_added twoSurfKernel "reflective" ⟨[]⟩
    { cad_filename := "w.stp", surface_reflectivity := some [(4, true)],
      volumes := [1] }
    [] [(4, true)] [4, 7] rfl rfl (by decide) rfl
  exact h

/-- C7: the claim — matching the spec — says a stale reflecting-surface
record is dropped silently and the pass completes without error.  The
source deletes from the record dictionary while iterating over its keys
(`core.py` 357-365), so CPython raises
`RuntimeError: dictionary changed size during iteration` at the iterator
step after the deletion: here the entry remembers surface 3 as reflecting,
the live surface set is empty, and the pass fails instead of healing. -/
theorem c7_stale_record_runtime_error :
    find_reflecting_surfaces_of_reflecting_wedge emptyKernel staleRecWedge
      "reflective" ⟨[]⟩ =
    (⟨[]⟩, .error (Err.runtimeError "dictionary changed size during iteration")) :=
  rfl

/-- C8: reconciliation is idempotent when no geometry changes: if a run of
`find_reflecting_surfaces_of_reflecting_wedge` completes successfully, a
second run on its output — against a kernel whose live surface answers are
unchanged — returns the same state, the same entry list (hence the same
per-entry surface_reflectivity record) and the same wedge volume, issuing no
further commands. -/
theorem c8_reconciliation_idempotent (K : Kernel) (gd gd1 : List Entry)
    (name : String) (st st1 : St) (wv : Option String)
    (h1 : find_reflecting_surfaces_of_reflecting_wedge K gd name st =
      (st1, .ok (gd1, wv)))
    (hK : ∀ q, (K st1.trace).parse "surface" q = (K st.trace).parse "surface" q) :
    find_reflecting_surfaces_of_reflecting_wedge K gd1 name st1 =
      (st1, .ok (gd1, wv)) :=
  frswGo_idem K name gd st gd1 st1 wv h1 hK

theorem c8_reconciliation_idempotent_witness :
    find_reflecting_surfaces_of_reflecting_wedge twoSurfKernel
      [{ cad_filename := "w.stp",
         surface_reflectivity := some [(4, true), (7, true)], volumes := [1] }]
      "reflective"
      ⟨["group \"reflective\" add surf 7", "surface 7 visibility on"]⟩ =
    (⟨["group \"reflective\" add surf 7", "surface 7 visibility on"]⟩,
      .ok ([{ cad_filename := "w.stp",
              surface_reflectivity := some [(4, true), (7, true)],
              volumes := [1] }], some "1")) :=
  c8_reconciliation_idempotent twoSurfKernel liveRecWedge
    [{ cad_filename := "w.stp",
       surface_reflectivity := some [(4, true), (7, true)], volumes := [1] }]
    "reflective" ⟨[]⟩
    ⟨["group \"reflective\" add surf 7", "surface 7 visibility on"]⟩
    (some "1") (by rfl) (fun q => rfl)

/-- C9: for every run whose input declares `surface_reflectivity` on some
entry (with every input file of a supported extension and present on disk,
valid output filenames, an importable kernel, and no base file name starting
with `mat:`), `cad_to_h5m` fails with the `TypeError` raised when the loader
calls the three-parameter `find_all_surfaces_of_reflecting_wedge(new_vols,
cubit, verbose)` with only two arguments (`core.py` 495), and it fails
during loading: every command issued up to the error is benign — none is a
material group command and none is an export. -/
theorem c9_reflectivity_arity_type_error (K : Kernel) (fx : String → Bool)
    (es : List Entry) (h5m cp : String) (cf : Option String) (mt ft : String)
    (mw imp : Bool) (nm : String) (exo ict : Option String) (vb : Bool)
    (gy : Option Int)
    (hh : pySuffix h5m = ".h5m")
    (hexo : extOk exo [".exo"] = true)
    (hcub : extOk cf [".cub", ".cub5"] = true)
    (hfiles : ∀ e ∈ es, (importTypeOf e.cad_filename).isSome = true ∧
      fx e.cad_filename = true ∧
      strStartsWith (shortFileName e.cad_filename) "mat:" = false)
    (hex : ∃ e ∈ es, e.surface_reflectivity.isSome = true) :
    ∃ st', cad_to_h5m K true fx es h5m cp cf mt ft mw imp nm exo ict vb gy =
        (st', .error (Err.typeError arityMsg)) ∧
      ∀ c ∈ st'.trace, benign c := by
  rw [cad_to_h5m]
  rw [if_neg (by simp [hh])]
  rw [if_neg (by simp [hexo])]
  rw [if_neg (by simp [hcub])]
  rw [if_neg (by simp)]
  cases vb with
  | true =>
    obtain ⟨cmds, hf, hben⟩ := fnov_refl_error K fx es ⟨[]⟩ hfiles hex
    rw [if_pos rfl]
    dsimp only
    rw [hf]
    refine ⟨_, rfl, ?_⟩
    intro c hc
    simp only [List.nil_append] at hc
    exact hben c hc
  | false =>
    obtain ⟨cmds, hf, hben⟩ := fnov_refl_error K fx es
      ⟨["set echo off", "set info off", "set journal off", "set warning off"]⟩
      hfiles hex
    rw [if_neg (by simp)]
    dsimp only
    rw [hf]
    refine ⟨_, rfl, ?_⟩
    intro c hc
    rcases List.mem_append.mp hc with h | h
    · simp only [List.mem_cons, List.mem_singleton, List.mem_nil_iff, or_false] at h
      rcases h with rfl | rfl | rfl | rfl <;> exact ⟨rfl, rfl⟩
    · exact hben c h

theorem c9_reflectivity_arity_type_error_witness :
    ∃ st', cad_to_h5m emptyKernel true (fun _ => true)
        [{ cad_filename := "w.stp", surface_reflectivity := some [] }]
        "dagmc.h5m" "/opt/" none "0.0001" "0.01" true true "reflective"
        none none true none =
        (st', .error (Err.typeError arityMsg)) ∧
      ∀ c ∈ st'.trace, benign c :=
  c9_reflectivity_arity_type_error emptyKernel (fun _ => true)
    [{ cad_filename := "w.stp", surface_reflectivity := some [] }]
    "dagmc.h5m" "/opt/" none "0.0001" "0.01" true true "reflective" none none
    true none (by decide) rfl rfl
    (by
      intro e he
      simp only [List.mem_singleton] at he
      subst he
      exact ⟨rfl, rfl, by decide⟩)
    ⟨{ cad_filename := "w.stp", surface_reflectivity := some [] }, by simp, rfl⟩

/-- C10: whenever the graveyard block runs to completion, the subtract
command it sends is the concatenation `"subtract vol " + str(inner) +
"from vol " + str(outer)` with no space between the inner volume number and
the word `from` (`core.py` 428-432), so the command text contains the
substring `str(inner) + "from vol"`. -/
theorem c10_subtract_cmd_missing_space (K : Kernel) (gd : List Entry)
    (ict : Option String) (st st' : St) (L : Int) (lastE : Entry) (n : Nat)
    (h1 : gd.getLast? = some lastE) (h2 : lastE.volumes.getLast? = some n)
    (h : tag_geometry_with_mats K gd ict (some L) st = (st', none)) :
    (∃ pre post, st'.trace =
      pre ++ ("subtract vol " ++ toString (n + 1) ++ "from vol " ++
        toString (n + 2)) :: post) ∧
    ∃ a b, ("subtract vol " ++ toString (n + 1) ++ "from vol " ++
        toString (n + 2)) =
      a ++ (toString (n + 1) ++ "from vol") ++ b := by
  constructor
  · rw [tag_geometry_with_mats] at h
    rcases htf : tagFold K ict st gd with ⟨st1, err⟩
    rw [htf] at h
    cases err with
    | some e => simp at h
    | none =>
      dsimp only at h
      rw [graveyardCmds_eq gd ict L st1 lastE n h1 h2] at h
      have hst : st'.trace = st1.trace ++
          ["create brick x " ++ toString L,
           "create brick x " ++ toString (L + 5),
           "subtract vol " ++ toString (n + 1) ++ "from vol " ++ toString (n + 2),
           matGroupCmd "Graveyard" (toString (n + 3))] ++ ictTail ict (n + 3) := by
        have h6 := congrArg Prod.fst h
        simp at h6
        rw [← h6]
        simp [List.append_assoc]
      refine ⟨st1.trace ++
        ["create brick x " ++ toString L, "create brick x " ++ toString (L + 5)],
        matGroupCmd "Graveyard" (toString (n + 3)) :: ictTail ict (n + 3), ?_⟩
      rw [hst]
      simp [List.append_assoc]
  · refine ⟨"subtract vol ", " " ++ toString (n + 2), ?_⟩
    have hdata : ∀ s₁ s₂ : String,
        ("subtract vol " ++ s₁ ++ "from vol " ++ s₂).data =
        ("subtract vol " ++ (s₁ ++ "from vol") ++ (" " ++ s₂)).data := by
      intro s₁ s₂
      simp only [strDataAppend, List.append_assoc]
      rfl
    exact congrArg String.mk (hdata (toString (n + 1)) (toString (n + 2)))

theorem c10_subtract_cmd_missing_space_witness :
    (∃ pre post,
      (⟨["group \"mat:iron\" add volume 5", "create brick x 3",
         "create brick x 8", "subtract vol 6from vol 7",
         "group \"mat:Graveyard\" add volume 8"]⟩ : St).trace =
      pre ++ ("subtract vol " ++ toString (5 + 1) ++ "from vol " ++
        toString (5 + 2)) :: post) ∧
    ∃ a b, ("subtract vol " ++ toString (5 + 1) ++ "from vol " ++
        toString (5 + 2)) =
      a ++ (toString (5 + 1) ++ "from vol") ++ b :=
  c10_subtract_cmd_missing_space emptyKernel
    [{ cad_filename := "c.stp", material_tag := some "iron", volumes := [5] }]
    none ⟨[]⟩
    ⟨["group \"mat:iron\" add volume 5", "create brick x 3", "create brick x 8",
      "subtract vol 6from vol 7", "group \"mat:Graveyard\" add volume 8"]⟩
    3
    { cad_filename := "c.stp", material_tag := some "iron", volumes := [5] }
    5 rfl rfl rfl
